import Mathlib

/-!
Verification of the bid-price scoring core (`my_project/core/fraction_calculator.py`)
against its natural-language specification.

Embedding notes:

* Python `Decimal` values are modelled as exact rationals (`ℚ`).  The source
  converts every operand with `Decimal(str(x))` and quantizes intermediate
  results explicitly; the only place where Python's 28-significant-digit
  division context could differ from exact rational division is invisible at
  the 4-digit quantization points used here, so division is modelled exactly.
* `Decimal.quantize(..., rounding=ROUND_HALF_UP)` rounds half away from zero;
  it is modelled by `quant` below.
* `random.choice(self.configs)` is modelled by an arbitrary choice function
  `choose : ℕ → ℕ` giving, for each item position, the index drawn.
  `_get_random_config` returns `none` exactly when the config list is empty.
* `items.sort(key=lambda x: x['score'], reverse=True)` is Python's stable sort
  in descending score order; it is modelled by `List.mergeSort` (also a stable
  sort) with the order `score_ge`.
* The persisted result log (`result.json`) is modelled as a `List ScoringRecord`
  threaded through `calcLog`; the source mutates the file only once, after the
  whole record has been assembled.  The record timestamp is an I/O effect and
  is not modelled.
* Python raises `ValueError` for the three validation failures and for a
  missing config, and `decimal.DivisionByZero` for a zero divisor; these are
  the constructors of `CalcError`.
-/

namespace BidPriceCalc

/-! ### Decimal arithmetic policy -/

/-- Round a rational to an integer, halves away from zero
(`decimal.ROUND_HALF_UP`). -/
def rhz (q : ℚ) : ℤ :=
  if 0 ≤ q then ⌊q + 1 / 2⌋ else -⌊-q + 1 / 2⌋

/-- Model of `Decimal.quantize(Decimal('0.' ++ '0'*(s-1) ++ '1'), ROUND_HALF_UP)`:
round to `s` fractional digits, halves away from zero. -/
def quant (s : ℕ) (q : ℚ) : ℚ :=
  (rhz (q * 10 ^ s) : ℚ) / 10 ^ s

theorem rhz_mono {x y : ℚ} (h : x ≤ y) : rhz x ≤ rhz y := by
  unfold rhz
  by_cases hx : 0 ≤ x
  · have hy : 0 ≤ y := le_trans hx h
    simp only [hx, hy, if_true]
    exact Int.floor_le_floor (by linarith)
  · by_cases hy : 0 ≤ y
    · simp only [hx, hy, if_true, if_false]
      have h1 : (0:ℤ) ≤ ⌊y + 1/2⌋ := Int.floor_nonneg.mpr (by linarith)
      have h2 : (0:ℤ) ≤ ⌊-x + 1/2⌋ := Int.floor_nonneg.mpr (by push_neg at hx; linarith)
      omega
    · simp only [hx, hy, if_false]
      have := Int.floor_le_floor (show -y + 1/2 ≤ -x + 1/2 by linarith)
      omega

theorem quant_mono {s : ℕ} {x y : ℚ} (h : x ≤ y) : quant s x ≤ quant s y := by
  unfold quant
  gcongr
  exact_mod_cast rhz_mono (mul_le_mul_of_nonneg_right h (by positivity))

theorem rhz_zero : rhz 0 = 0 := by
  norm_num [rhz]

theorem quant_zero (s : ℕ) : quant s 0 = 0 := by
  simp [quant, rhz_zero]

theorem quant_nonneg {s : ℕ} {x : ℚ} (h : 0 ≤ x) : 0 ≤ quant s x := by
  have := quant_mono (s := s) h
  rwa [quant_zero] at this

theorem quant_nonpos {s : ℕ} {x : ℚ} (h : x ≤ 0) : quant s x ≤ 0 := by
  have := quant_mono (s := s) h
  rwa [quant_zero] at this

/-- Quantization commutes with clamping at zero; this underlies the equality
of `max (round2 x) 0` (the code) and `round2 (max x 0)` (the spec formula). -/
theorem quant_max_zero (s : ℕ) (x : ℚ) : max (quant s x) 0 = quant s (max x 0) := by
  rcases le_total x 0 with h | h
  · rw [max_eq_right h, quant_zero, max_eq_right (quant_nonpos h)]
  · rw [max_eq_left h, max_eq_left (quant_nonneg h)]

/-! ### Data model -/

/-- One entry of `configs` in `calc_conf.json` (spec: ScoringConfig). -/
structure ScoringConfig where
  name : String
  float_a : ℚ
  weight_b : ℚ
  float_c3 : ℚ
deriving DecidableEq

/-- One element of the `items` list built in `calc` (spec: PriceItem). -/
structure PriceItem where
  price : ℚ
  bid_float_rate : ℚ
  config_name : String
  final_float_a : ℚ
  benchmark_price : ℚ
  score : ℚ
deriving DecidableEq

/-- One record appended to `result.json` (spec: ScoringRecord).  The
timestamp is an I/O effect and is not part of the embedding. -/
structure ScoringRecord where
  items : List PriceItem
  avg_price : ℚ
deriving DecidableEq

/-- Errors raised by the source: `ValueError(msg)` (validation and missing
config) and `decimal.DivisionByZero` (zero divisor in `Decimal` division). -/
inductive CalcError where
  | valueError (msg : String)
  | divisionByZero
deriving DecidableEq

/-! ### Per-step calculators (source lines 58-174) -/

/-- Source `_get_random_config` (lines 58-62): `None` when `self.configs` is
empty, otherwise a randomly chosen entry; the random draw is modelled by the
caller-supplied index `k`. -/
def _get_random_config (configs : List ScoringConfig) (k : ℕ) : Option ScoringConfig :=
  configs.get? (k % configs.length)

/-- Source `_calculate_final_float_a` (lines 64-88): tiered adjustment of the
config's `float_a` by the bid float rate, quantized to 4 digits. -/
def _calculate_final_float_a (bid_float_rate float_a : ℚ) : ℚ :=
  quant 4 (if bid_float_rate ≤ 0.08 then float_a
           else if bid_float_rate ≤ 0.15 then float_a - 0.025
           else float_a - 0.05)

/-- Source `_calculate_float_rate` (lines 90-95). -/
def _calculate_float_rate (standard_price price : ℚ) : ℚ :=
  quant 4 ((price - standard_price) / standard_price)

/-- Source `_calculate_average` (lines 97-104). -/
def _calculate_average (prices : List ℚ) : ℚ :=
  if prices = [] then 0
  else quant 2 (prices.sum / prices.length)

/-- Source `_calculate_benchmark_price` (lines 106-135). -/
def _calculate_benchmark_price (standard_price avg_price : ℚ) (config : ScoringConfig)
    (final_float_a : ℚ) : ℚ :=
  quant 2 (avg_price * (1 + config.float_c3) * config.weight_b +
           standard_price * (1 - final_float_a) * (1 - config.weight_b))

/-- Source local `deviation_rate` in `_calculate_score` (lines 157-159). -/
def deviation_rate (price benchmark_price : ℚ) : ℚ :=
  quant 4 ((price - benchmark_price) / benchmark_price)

/-- Source local `deduction` in `_calculate_score` (lines 164-168). -/
def deduction (price benchmark_price : ℚ) : ℚ :=
  if 0 < deviation_rate price benchmark_price then deviation_rate price benchmark_price * 200
  else |deviation_rate price benchmark_price| * 100

/-- Source `_calculate_score` (lines 137-174): `max(float(final_score), 0)`
applied to the 2-digit quantization of `100 - deduction`. -/
def _calculate_score (price benchmark_price : ℚ) : ℚ :=
  max (quant 2 (100 - deduction price benchmark_price)) 0

/-- Modelled from the spec (§4.5): `score = round2(max(100 − deduction, 0))`,
with `deviation` and `deduction` as in §4.5.  Written from the spec's words to
compare against the source's `_calculate_score`. -/
def score_spec (price benchmark_price : ℚ) : ℚ :=
  let deviation := quant 4 ((price - benchmark_price) / benchmark_price)
  let ded := if 0 < deviation then deviation * 200 else |deviation| * 100
  quant 2 (max (100 - ded) 0)

/-! ### Orchestrator (source `calc`, lines 176-242) -/

/-- Body of the per-price loop (source lines 198-225) for one price, after the
config has been selected.  The explicit zero tests mirror `decimal`'s
`DivisionByZero` in `_calculate_float_rate` and `_calculate_score`. -/
def calcItem (standard_price avg_price : ℚ) (config : ScoringConfig) (price : ℚ) :
    Except CalcError PriceItem :=
  if standard_price = 0 then .error .divisionByZero
  else
    let bid_float_rate := _calculate_float_rate standard_price price
    let final_float_a := _calculate_final_float_a bid_float_rate config.float_a
    let benchmark_price := _calculate_benchmark_price standard_price avg_price config final_float_a
    if benchmark_price = 0 then .error .divisionByZero
    else .ok { price := price
               bid_float_rate := bid_float_rate
               config_name := config.name
               final_float_a := final_float_a
               benchmark_price := benchmark_price
               score := _calculate_score price benchmark_price }

/-- The per-price loop of `calc` (source lines 191-225): for each price, fetch
a config (failing with `ValueError("无法获取计算配置")` when none is available)
and run the pipeline; the first failure aborts the whole loop. -/
def calcItems (standard_price avg_price : ℚ) (configs : List ScoringConfig) (choose : ℕ → ℕ) :
    List ℚ → ℕ → Except CalcError (List PriceItem)
  | [], _ => .ok []
  | price :: rest, idx =>
    match _get_random_config configs (choose idx) with
    | none => .error (.valueError "无法获取计算配置")
    | some config =>
      match calcItem standard_price avg_price config price with
      | .error e => .error e
      | .ok item =>
        match calcItems standard_price avg_price configs choose rest (idx + 1) with
        | .error e => .error e
        | .ok items => .ok (item :: items)

/-- Descending-score order used by `items.sort(key=lambda x: x['score'],
reverse=True)` (source line 228). -/
def score_ge (a b : PriceItem) : Bool :=
  decide (b.score ≤ a.score)

/-- Source `calc` (lines 176-242) up to, but not including, the log write:
validation, batch average, per-price loop, stable descending sort, record
assembly.  Python's stable `list.sort` is modelled by `List.mergeSort`. -/
def «calc» (standard_price : ℚ) (configs : List ScoringConfig) (choose : ℕ → ℕ)
    (prices : List ℚ) : Except CalcError ScoringRecord :=
  if prices = [] then .error (.valueError "价格列表不能为空")
  else if prices.any (fun p => decide (p < 0)) then
    .error (.valueError "价格列表中包含无效的价格值")
  else
    match calcItems standard_price (_calculate_average prices) configs choose prices 0 with
    | .error e => .error e
    | .ok items => .ok { items := items.mergeSort score_ge
                         avg_price := _calculate_average prices }

/-- Source `calc` including the final `_load_result`/`append`/`_save_result`
step (lines 237-240): the log is rewritten with the new record appended only
after the whole record exists; any earlier failure leaves it untouched. -/
def calcLog (standard_price : ℚ) (configs : List ScoringConfig) (choose : ℕ → ℕ)
    (prices : List ℚ) (log : List ScoringRecord) :
    List ScoringRecord × Except CalcError ScoringRecord :=
  match «calc» standard_price configs choose prices with
  | .error e => (log, .error e)
  | .ok record => (log ++ [record], .ok record)

/-- The calculator object: `self.standard_price` and `self.configs` as loaded
once by `__init__` (source lines 16-22). -/
structure FractionCalculator where
  standard_price : ℚ
  configs : List ScoringConfig
deriving DecidableEq

/-- One `calc` call on a calculator object together with the persisted log:
returns the post-call object state, the post-call log, and the result.
The source's `calc` never assigns `self.standard_price` or `self.configs`. -/
def calcState (c : FractionCalculator) (choose : ℕ → ℕ) (prices : List ℚ)
    (log : List ScoringRecord) :
    (FractionCalculator × List ScoringRecord) × Except CalcError ScoringRecord :=
  ((c, (calcLog c.standard_price c.configs choose prices log).1),
   (calcLog c.standard_price c.configs choose prices log).2)

/-! ### Concrete evaluation of the spec's worked example (§8) -/

/-- Config `{name:"A", float_a:0.05, weight_b:0.6, float_c3:0.02}` of the
spec's worked example. -/
def configA : ScoringConfig :=
  { name := "A", float_a := 0.05, weight_b := 0.6, float_c3 := 0.02 }

/-- Item produced for the single price 5200 in the worked example. -/
def itemA : PriceItem :=
  { price := 5200, bid_float_rate := -0.0344, config_name := "A",
    final_float_a := 0.05, benchmark_price := 5228.70, score := 99.45 }

/-- Record produced for the worked example. -/
def recordA : ScoringRecord :=
  { items := [itemA], avg_price := 5200 }

theorem eval_avg_example : _calculate_average [5200] = 5200 := by
  norm_num [_calculate_average, quant, rhz]

theorem eval_float_rate_example : _calculate_float_rate 5385 5200 = -0.0344 := by
  norm_num [_calculate_float_rate, quant, rhz]

theorem eval_final_float_a_example : _calculate_final_float_a (-0.0344) 0.05 = 0.05 := by
  norm_num [_calculate_final_float_a, quant, rhz]

theorem eval_benchmark_example :
    _calculate_benchmark_price 5385 5200 configA 0.05 = 5228.70 := by
  norm_num [_calculate_benchmark_price, configA, quant, rhz]

theorem eval_deviation_example : deviation_rate 5200 5228.70 = -0.0055 := by
  norm_num [deviation_rate, quant, rhz]

theorem eval_deduction_example : deduction 5200 5228.70 = 0.55 := by
  rw [deduction, eval_deviation_example]
  have habs : |(-0.0055 : ℚ)| = 0.0055 := by
    rw [abs_of_neg (by norm_num)]; norm_num
  rw [if_neg (by norm_num), habs]
  norm_num

theorem eval_score_example : _calculate_score 5200 5228.70 = 99.45 := by
  rw [_calculate_score, eval_deduction_example]
  have h : quant 2 (100 - 0.55) = 99.45 := by norm_num [quant, rhz]
  rw [h]
  norm_num

theorem configA_float_a : configA.float_a = 0.05 := rfl

theorem configA_name : configA.name = "A" := rfl

theorem eval_calcItem_example : calcItem 5385 5200 configA 5200 = .ok itemA := by
  rw [calcItem, if_neg (by norm_num : ¬(5385:ℚ) = 0)]
  simp only [configA_float_a, eval_float_rate_example, eval_final_float_a_example,
    eval_benchmark_example]
  rw [if_neg (by norm_num : ¬(5228.70:ℚ) = 0), eval_score_example]
  simp [itemA, configA_name]

theorem eval_calcItems_example :
    calcItems 5385 5200 [configA] (fun _ => 0) [5200] 0 = .ok [itemA] := by
  rw [calcItems, calcItems]
  simp only [_get_random_config, List.length_singleton, Nat.zero_mod, List.get?_cons_zero,
    eval_calcItem_example]

theorem eval_calcItems_example' :
    calcItems 5385 (_calculate_average [5200]) [configA] (fun _ => 0) [5200] 0 = .ok [itemA] := by
  rw [eval_avg_example]
  exact eval_calcItems_example

theorem eval_calc_example :
    «calc» 5385 [configA] (fun _ => 0) [5200] = .ok recordA := by
  rw [«calc»]
  rw [if_neg (by norm_num), if_neg (by norm_num)]
  simp only [eval_avg_example, eval_calcItems_example]
  simp [recordA, List.mergeSort_singleton, eval_avg_example]

/-! ### Score bounds -/

theorem deduction_nonneg (p bp : ℚ) : 0 ≤ deduction p bp := by
  unfold deduction
  split
  · next h => nlinarith
  · positivity

theorem quant_two_hundred : quant 2 100 = 100 := by
  norm_num [quant, rhz]

theorem score_bounds (p bp : ℚ) :
    0 ≤ _calculate_score p bp ∧ _calculate_score p bp ≤ 100 := by
  constructor
  · exact le_max_right _ _
  · apply max_le
    · calc quant 2 (100 - deduction p bp) ≤ quant 2 100 :=
            quant_mono (by linarith [deduction_nonneg p bp])
        _ = 100 := quant_two_hundred
    · norm_num

theorem calcItem_ok_score {sp avg : ℚ} {cfg : ScoringConfig} {p : ℚ} {it : PriceItem}
    (h : calcItem sp avg cfg p = .ok it) :
    0 ≤ it.score ∧ it.score ≤ 100 := by
  rw [calcItem] at h
  split at h
  · cases h
  · dsimp only at h
    split at h
    · cases h
    · simp only [Except.ok.injEq] at h
      subst h
      exact score_bounds _ _

theorem calcItems_ok_score {sp avg : ℚ} {cfgs : List ScoringConfig} {ch : ℕ → ℕ} :
    ∀ {prices : List ℚ} {idx : ℕ} {l : List PriceItem},
      calcItems sp avg cfgs ch prices idx = .ok l →
      ∀ it ∈ l, 0 ≤ it.score ∧ it.score ≤ 100 := by
  intro prices
  induction prices with
  | nil =>
    intro idx l h it hit
    simp only [calcItems, Except.ok.injEq] at h
    subst h
    cases hit
  | cons p rest ih =>
    intro idx l h it hit
    rw [calcItems] at h
    cases hcfg : _get_random_config cfgs (ch idx) with
    | none => rw [hcfg] at h; cases h
    | some cfg =>
      rw [hcfg] at h
      dsimp only at h
      cases hitem : calcItem sp avg cfg p with
      | error e => rw [hitem] at h; cases h
      | ok item =>
        rw [hitem] at h
        dsimp only at h
        cases hrest : calcItems sp avg cfgs ch rest (idx + 1) with
        | error e => rw [hrest] at h; cases h
        | ok items =>
          rw [hrest] at h
          simp only [Except.ok.injEq] at h
          subst h
          rcases hit with _ | hit'
          · exact calcItem_ok_score hitem
          · exact ih hrest it (by assumption)

/-! ### Error shapes -/

theorem calcItem_error_shape {sp avg : ℚ} {cfg : ScoringConfig} {p : ℚ} {e : CalcError}
    (h : calcItem sp avg cfg p = .error e) : e = .divisionByZero := by
  rw [calcItem] at h
  split at h
  · simp only [Except.error.injEq] at h
    exact h.symm
  · dsimp only at h
    split at h
    · simp only [Except.error.injEq] at h
      exact h.symm
    · cases h

theorem calcItems_error_shape {sp avg : ℚ} {cfgs : List ScoringConfig} {ch : ℕ → ℕ} :
    ∀ {prices : List ℚ} {idx : ℕ} {e : CalcError},
      calcItems sp avg cfgs ch prices idx = .error e →
      e = .valueError "无法获取计算配置" ∨ e = .divisionByZero := by
  intro prices
  induction prices with
  | nil => intro idx e h; cases h
  | cons p rest ih =>
    intro idx e h
    rw [calcItems] at h
    cases hcfg : _get_random_config cfgs (ch idx) with
    | none =>
      rw [hcfg] at h
      simp only [Except.error.injEq] at h
      exact Or.inl h.symm
    | some cfg =>
      rw [hcfg] at h
      dsimp only at h
      cases hitem : calcItem sp avg cfg p with
      | error e' =>
        rw [hitem] at h
        simp only [Except.error.injEq] at h
        subst h
        exact Or.inr (calcItem_error_shape hitem)
      | ok item =>
        rw [hitem] at h
        dsimp only at h
        cases hrest : calcItems sp avg cfgs ch rest (idx + 1) with
        | error e' =>
          rw [hrest] at h
          simp only [Except.error.injEq] at h
          subst h
          exact ih hrest
        | ok items => rw [hrest] at h; cases h

theorem calcItem_ok_price {sp avg : ℚ} {cfg : ScoringConfig} {p : ℚ} {it : PriceItem}
    (h : calcItem sp avg cfg p = .ok it) : it.price = p := by
  rw [calcItem] at h
  split at h
  · cases h
  · dsimp only at h
    split at h
    · cases h
    · simp only [Except.ok.injEq] at h
      subst h
      rfl

/-- The per-price loop emits exactly one item per price, in input order. -/
theorem calcItems_map_price {sp avg : ℚ} {cfgs : List ScoringConfig} {ch : ℕ → ℕ} :
    ∀ {prices : List ℚ} {idx : ℕ} {l : List PriceItem},
      calcItems sp avg cfgs ch prices idx = .ok l →
      l.map (fun it => it.price) = prices := by
  intro prices
  induction prices with
  | nil =>
    intro idx l h
    simp only [calcItems, Except.ok.injEq] at h
    subst h
    rfl
  | cons p rest ih =>
    intro idx l h
    rw [calcItems] at h
    cases hcfg : _get_random_config cfgs (ch idx) with
    | none => rw [hcfg] at h; cases h
    | some cfg =>
      rw [hcfg] at h
      dsimp only at h
      cases hitem : calcItem sp avg cfg p with
      | error e => rw [hitem] at h; cases h
      | ok item =>
        rw [hitem] at h
        dsimp only at h
        cases hrest : calcItems sp avg cfgs ch rest (idx + 1) with
        | error e => rw [hrest] at h; cases h
        | ok items =>
          rw [hrest] at h
          simp only [Except.ok.injEq] at h
          subst h
          simp only [List.map_cons, calcItem_ok_price hitem, ih hrest]

/-! ### Properties of the descending stable sort -/

theorem score_ge_trans : ∀ (a b c : PriceItem), score_ge a b → score_ge b c → score_ge a c := by
  intro a b c hab hbc
  simp only [score_ge, decide_eq_true_eq] at *
  exact le_trans hbc hab

theorem score_ge_total : ∀ (a b : PriceItem), score_ge a b || score_ge b a := by
  intro a b
  simp only [score_ge, Bool.or_eq_true, decide_eq_true_eq]
  exact le_total b.score a.score

theorem filter_score_pairwise (l : List PriceItem) (s : ℚ) :
    (l.filter (fun it => decide (it.score = s))).Pairwise (fun a b => score_ge a b) := by
  apply List.pairwise_of_forall_mem_list
  intro a ha b hb
  rw [List.mem_filter] at ha hb
  have ha' : a.score = s := by simpa using ha.2
  have hb' : b.score = s := by simpa using hb.2
  simp only [score_ge, decide_eq_true_eq]
  rw [ha', hb']

/-- Stability of the modelled sort: the sorted list filtered to any one score
value coincides with the unsorted list filtered to that value, i.e. ties keep
their original relative order. -/
theorem mergeSort_filter_stable (l : List PriceItem) (s : ℚ) :
    (l.mergeSort score_ge).filter (fun it => decide (it.score = s)) =
      l.filter (fun it => decide (it.score = s)) := by
  have hsub : List.Sublist (l.filter (fun it => decide (it.score = s))) (l.mergeSort score_ge) :=
    List.sublist_mergeSort score_ge_trans score_ge_total
      (filter_score_pairwise l s) (List.filter_sublist l)
  have h2 : List.Sublist (l.filter (fun it => decide (it.score = s)))
      ((l.mergeSort score_ge).filter (fun it => decide (it.score = s))) := by
    have h3 := hsub.filter (fun it => decide (it.score = s))
    rw [List.filter_filter] at h3
    simpa [Bool.and_self] using h3
  have hperm : ((l.mergeSort score_ge).filter (fun it => decide (it.score = s))).Perm
      (l.filter (fun it => decide (it.score = s))) :=
    (List.mergeSort_perm l score_ge).filter _
  exact (h2.eq_of_length hperm.length_eq.symm).symm

/-! ### Shape of a successful `calc` -/

theorem calc_ok_items {sp : ℚ} {cfgs : List ScoringConfig} {ch : ℕ → ℕ}
    {prices : List ℚ} {rec : ScoringRecord}
    (h : «calc» sp cfgs ch prices = .ok rec) :
    ∃ raw, calcItems sp (_calculate_average prices) cfgs ch prices 0 = .ok raw ∧
      rec.items = raw.mergeSort score_ge ∧
      rec.avg_price = _calculate_average prices := by
  rw [«calc»] at h
  by_cases h1 : prices = []
  · rw [if_pos h1] at h
    exact Except.noConfusion h
  · rw [if_neg h1] at h
    by_cases h2 : prices.any (fun p => decide (p < 0)) = true
    · rw [if_pos h2] at h
      exact Except.noConfusion h
    · rw [if_neg h2] at h
      cases hI : calcItems sp (_calculate_average prices) cfgs ch prices 0 with
      | error e => rw [hI] at h; exact Except.noConfusion h
      | ok items =>
        rw [hI] at h
        simp only [Except.ok.injEq] at h
        subst h
        exact ⟨items, rfl, rfl, rfl⟩

/-! ### Claims -/

/-- Claim C1: with `standard_price = 5385`, the config
`{name "A", float_a 0.05, weight_b 0.6, float_c3 0.02}` selected for the item,
and input price list `[5200]`, `calc` produces a record whose `avg_price` is
5200.00 and whose single item has `bid_float_rate = -0.0344`,
`final_float_a = 0.0500`, `benchmark_price = 5228.70`, `score = 99.45`. -/
theorem claim_C1_concrete_scenario :
    «calc» 5385 [configA] (fun _ => 0) [5200] =
      .ok { items := [{ price := 5200, bid_float_rate := -0.0344, config_name := "A",
                        final_float_a := 0.05, benchmark_price := 5228.70, score := 99.45 }],
            avg_price := 5200 } :=
  eval_calc_example

/-- Claim C2: for every price and every nonzero benchmark price, the score
calculator computes `deviation = round4((price − benchmark)/benchmark)` half
away from zero, `deduction = deviation·200` when `deviation > 0` else
`|deviation|·100`, and returns `round2(max(100 − deduction, 0))` — the
zero floor and the 2-digit rounding compose exactly as the spec's formula
states (the code's `max(round2(100 - deduction), 0)` equals it). -/
theorem claim_C2_score_formula (p bp : ℚ) (h : bp ≠ 0) :
    _calculate_score p bp = score_spec p bp := by
  simp only [_calculate_score, score_spec, deduction, deviation_rate]
  exact quant_max_zero 2 _

/-- Witness for C2 at `price = 5200`, `benchmark_price = 100`. -/
theorem claim_C2_witness :
    _calculate_score 5200 100 = score_spec 5200 100 :=
  claim_C2_score_formula 5200 100 (by simp)

/-- Claim C3 counterexample: at `bid_float_rate = 0.08` and
`float_a = 0.00005`, the adjuster returns `round4(0.00005) = 0.0001`, which is
not equal to `float_a`, refuting the claim's clause that a rate of exactly
0.08 yields `final_float_a = float_a`. -/
theorem claim_C3_counterexample :
    _calculate_final_float_a 0.08 0.00005 = 0.0001 ∧ (0.0001 : ℚ) ≠ 0.00005 := by
  constructor
  · norm_num [_calculate_final_float_a, quant, rhz]
  · norm_num

/-- Claim C3 (amended): the adjuster returns `round4(float_a)` when
`bid_float_rate ≤ 0.08`, `round4(float_a − 0.025)` when
`0.08 < bid_float_rate ≤ 0.15`, and `round4(float_a − 0.05)` otherwise; a
rate of exactly 0.08 takes the first branch, yielding `round4(float_a)`. -/
theorem claim_C3_final_float_a_branches (bfr fa : ℚ) :
    (_calculate_final_float_a bfr fa =
      if bfr ≤ 0.08 then quant 4 fa
      else if bfr ≤ 0.15 then quant 4 (fa - 0.025)
      else quant 4 (fa - 0.05)) ∧
    _calculate_final_float_a 0.08 fa = quant 4 fa := by
  constructor
  · rw [_calculate_final_float_a]
    split_ifs <;> rfl
  · rw [_calculate_final_float_a, if_pos (by norm_num : (0.08:ℚ) ≤ 0.08)]

/-- Claim C4: value of the batch average under exact base-10 arithmetic at
the failing input `[1000000000000000, 0.06]`.  The Python source computes
`sum(prices)` in binary floating point before converting to `Decimal`
(line 101), so on float inputs it returns 500000000000000.00 here instead. -/
theorem claim_C4_exact_average :
    _calculate_average [1000000000000000, 0.06] = 500000000000000.03 := by
  rw [_calculate_average, if_neg (List.cons_ne_nil _ _)]
  norm_num [quant, rhz, List.sum_cons, List.sum_nil]

/-- Claim C5: every item of a record returned by a successful `calc` call has
`0 ≤ score ≤ 100`. -/
theorem claim_C5_score_in_range (sp : ℚ) (cfgs : List ScoringConfig) (ch : ℕ → ℕ)
    (prices : List ℚ) (rec : ScoringRecord)
    (h : «calc» sp cfgs ch prices = .ok rec) :
    ∀ it ∈ rec.items, 0 ≤ it.score ∧ it.score ≤ 100 := by
  obtain ⟨raw, hraw, hitems, -⟩ := calc_ok_items h
  intro it hit
  rw [hitems, List.mem_mergeSort] at hit
  exact calcItems_ok_score hraw it hit

/-- Witness for C5 at the worked example. -/
theorem claim_C5_witness : 0 ≤ itemA.score ∧ itemA.score ≤ 100 :=
  claim_C5_score_in_range 5385 [configA] (fun _ => 0) [5200] recordA
    eval_calc_example itemA (by simp [recordA])

/-- Claim C6: the items of a successful record are sorted non-increasing by
score, and filtering the sorted items to any single score value yields the
per-price-order list (`raw`) filtered to that value — the sort is stable with
respect to the per-price iteration order. -/
theorem claim_C6_sorted_stable (sp : ℚ) (cfgs : List ScoringConfig) (ch : ℕ → ℕ)
    (prices : List ℚ) (rec : ScoringRecord) (raw : List PriceItem)
    (h : «calc» sp cfgs ch prices = .ok rec)
    (hraw : calcItems sp (_calculate_average prices) cfgs ch prices 0 = .ok raw) :
    rec.items.Pairwise (fun a b => b.score ≤ a.score) ∧
    (∀ s : ℚ, rec.items.filter (fun it => decide (it.score = s)) =
      raw.filter (fun it => decide (it.score = s))) ∧
    raw.map (fun it => it.price) = prices := by
  obtain ⟨raw', hraw', hitems, -⟩ := calc_ok_items h
  rw [hraw'] at hraw
  injection hraw with hraw
  subst hraw
  refine ⟨?_, ?_, calcItems_map_price hraw'⟩
  · rw [hitems]
    exact (List.sorted_mergeSort score_ge_trans score_ge_total raw').imp
      (fun hab => by simpa [score_ge, decide_eq_true_eq] using hab)
  · intro s
    rw [hitems]
    exact mergeSort_filter_stable raw' s

/-- Witness for C6 at the worked example, with the filter taken at score
99.45. -/
theorem claim_C6_witness :
    recordA.items.Pairwise (fun a b => b.score ≤ a.score) ∧
    recordA.items.filter (fun it => decide (it.score = (99.45:ℚ))) =
      [itemA].filter (fun it => decide (it.score = (99.45:ℚ))) ∧
    [itemA].map (fun it => it.price) = [5200] :=
  ⟨(claim_C6_sorted_stable 5385 [configA] (fun _ => 0) [5200] recordA [itemA]
      eval_calc_example eval_calcItems_example').1,
   (claim_C6_sorted_stable 5385 [configA] (fun _ => 0) [5200] recordA [itemA]
      eval_calc_example eval_calcItems_example').2.1 99.45,
   (claim_C6_sorted_stable 5385 [configA] (fun _ => 0) [5200] recordA [itemA]
      eval_calc_example eval_calcItems_example').2.2⟩

/-- Claim C7: whenever `calc` fails with any error, the persisted result log
is exactly as it was before the call (nothing partial is written); on success
exactly one whole record is appended, and that record is the one returned. -/
theorem claim_C7_log_frame (sp : ℚ) (cfgs : List ScoringConfig) (ch : ℕ → ℕ)
    (prices : List ℚ) (log : List ScoringRecord) :
    (∀ e, (calcLog sp cfgs ch prices log).2 = .error e →
      (calcLog sp cfgs ch prices log).1 = log) ∧
    (∀ rec, (calcLog sp cfgs ch prices log).2 = .ok rec →
      (calcLog sp cfgs ch prices log).1 = log ++ [rec]) := by
  rw [calcLog]
  cases «calc» sp cfgs ch prices <;> simp

theorem eval_calcLog_error :
    (calcLog 5385 [configA] (fun _ => 0) [] [recordA]).2 =
      .error (.valueError "价格列表不能为空") := by
  rw [calcLog, «calc», if_pos rfl]

theorem eval_calcLog_ok :
    (calcLog 5385 [configA] (fun _ => 0) [5200] []).2 = .ok recordA := by
  rw [calcLog, eval_calc_example]

/-- Witness for C7: an empty-input failure leaves the one-record log intact,
and the worked example appends exactly its record to the empty log. -/
theorem claim_C7_witness :
    (calcLog 5385 [configA] (fun _ => 0) [] [recordA]).1 = [recordA] ∧
    (calcLog 5385 [configA] (fun _ => 0) [5200] []).1 = [] ++ [recordA] :=
  ⟨(claim_C7_log_frame 5385 [configA] (fun _ => 0) [] [recordA]).1
      (.valueError "价格列表不能为空") eval_calcLog_error,
   (claim_C7_log_frame 5385 [configA] (fun _ => 0) [5200] []).2
      recordA eval_calcLog_ok⟩

/-- Claim C8 counterexample: the empty-config failure and the empty-price
validation failure are raised with the same error class — both are the
source's `ValueError`, only the message differs — so the configuration error
is not an error classification distinguishable from a `ValidationError`. -/
theorem claim_C8_counterexample :
    «calc» 5385 [] (fun _ => 0) [5200] = .error (.valueError "无法获取计算配置") ∧
    «calc» 5385 [configA] (fun _ => 0) [] = .error (.valueError "价格列表不能为空") := by
  constructor
  · rw [«calc», if_neg (List.cons_ne_nil _ _)]
    rw [if_neg (by norm_num : ¬([(5200:ℚ)].any (fun p => decide (p < 0)) = true))]
    rw [calcItems]
    rfl
  · rw [«calc», if_pos rfl]

/-- Claim C8 (amended): for every non-empty list of non-negative prices, an
empty config list makes `calc` fail — before any per-item arithmetic — with
`ValueError("无法获取计算配置")`, the same exception class as validation
errors (distinguishable from them only by message), and never returns a
silent empty result. -/
theorem claim_C8_empty_configs (sp : ℚ) (ch : ℕ → ℕ) (prices : List ℚ)
    (hne : prices ≠ []) (hval : ∀ p ∈ prices, 0 ≤ p) :
    «calc» sp [] ch prices = .error (.valueError "无法获取计算配置") := by
  rw [«calc», if_neg hne]
  have hany : prices.any (fun p => decide (p < 0)) = false := by
    rw [List.any_eq_false]
    intro p hp
    simpa using not_lt.mpr (hval p hp)
  rw [if_neg (by rw [hany]; exact Bool.false_ne_true)]
  cases prices with
  | nil => exact absurd rfl hne
  | cons p rest =>
    rw [calcItems]
    rfl

/-- Witness for C8 at `prices = [0]`. -/
theorem claim_C8_witness :
    «calc» 5385 [] (fun _ => 0) [0] = .error (.valueError "无法获取计算配置") :=
  claim_C8_empty_configs 5385 (fun _ => 0) [0] (List.cons_ne_nil _ _)
    (by simp)

/-- Claim C9: `calc` returns a validation error (one of the two
`ValueError` messages of source lines 178-185) if and only if the input price
list is empty or contains a negative element; moreover on such invalid input
the outcome does not depend on the standard price, the configs or the random
choice — no item is scored and no arithmetic result is consulted.
(Non-numeric elements cannot be expressed in the typed embedding.) -/
theorem claim_C9_validation_iff (sp : ℚ) (cfgs : List ScoringConfig) (ch : ℕ → ℕ)
    (prices : List ℚ) :
    ((«calc» sp cfgs ch prices = .error (.valueError "价格列表不能为空") ∨
      «calc» sp cfgs ch prices = .error (.valueError "价格列表中包含无效的价格值")) ↔
      (prices = [] ∨ ∃ p ∈ prices, p < 0)) ∧
    ((prices = [] ∨ ∃ p ∈ prices, p < 0) →
      ∀ sp' cfgs' ch', «calc» sp cfgs ch prices = «calc» sp' cfgs' ch' prices) := by
  by_cases h1 : prices = []
  · subst h1
    constructor
    · constructor
      · intro _; exact Or.inl rfl
      · intro _
        exact Or.inl (by rw [«calc», if_pos rfl])
    · intro _ sp' cfgs' ch'
      rw [«calc», if_pos rfl, «calc», if_pos rfl]
  · by_cases h2 : ∃ p ∈ prices, p < 0
    · have hany : prices.any (fun p => decide (p < 0)) = true := by
        rw [List.any_eq_true]
        obtain ⟨p, hp, hlt⟩ := h2
        exact ⟨p, hp, by simpa using hlt⟩
      have heval : ∀ sp₀ cfgs₀ ch₀, «calc» sp₀ cfgs₀ ch₀ prices =
          .error (.valueError "价格列表中包含无效的价格值") := by
        intro sp₀ cfgs₀ ch₀
        rw [«calc», if_neg h1, if_pos hany]
      constructor
      · constructor
        · intro _; exact Or.inr h2
        · intro _; exact Or.inr (heval sp cfgs ch)
      · intro _ sp' cfgs' ch'
        rw [heval, heval]
    · have hany : prices.any (fun p => decide (p < 0)) = false := by
        rw [List.any_eq_false]
        intro p hp
        simp only [decide_eq_true_eq]
        exact fun hlt => h2 ⟨p, hp, hlt⟩
      constructor
      · constructor
        · intro hcalc
          rw [«calc», if_neg h1, if_neg (by rw [hany]; exact Bool.false_ne_true)] at hcalc
          cases hI : calcItems sp (_calculate_average prices) cfgs ch prices 0 with
          | error e =>
            rw [hI] at hcalc
            rcases calcItems_error_shape hI with he | he <;>
              rcases hcalc with hc | hc <;>
              · rw [he] at hc
                simp only [Except.error.injEq, CalcError.valueError.injEq] at hc
                exact absurd hc (by decide)
          | ok items =>
            rw [hI] at hcalc
            rcases hcalc with hc | hc <;> exact Except.noConfusion hc
        · intro hbad
          rcases hbad with hbad | hbad
          · exact absurd hbad h1
          · exact absurd hbad h2
      · intro hbad
        rcases hbad with hbad | hbad
        · exact absurd hbad h1
        · exact absurd hbad h2

/-- Witness for C9 at the empty price list. -/
theorem claim_C9_witness :
    («calc» 5385 [configA] (fun _ => 0) ([] : List ℚ) =
        .error (.valueError "价格列表不能为空") ∨
      «calc» 5385 [configA] (fun _ => 0) ([] : List ℚ) =
        .error (.valueError "价格列表中包含无效的价格值")) ∧
    «calc» 5385 [configA] (fun _ => 0) ([] : List ℚ) =
      «calc» 0 [] (fun _ => 1) ([] : List ℚ) :=
  ⟨(claim_C9_validation_iff 5385 [configA] (fun _ => 0) []).1.mpr (Or.inl rfl),
   (claim_C9_validation_iff 5385 [configA] (fun _ => 0) []).2 (Or.inl rfl) 0 [] (fun _ => 1)⟩

/-- Claim C10: a `calc` call never changes the calculator object: its
`standard_price` and `configs` are exactly those loaded at construction, and
the only state component a call can change is the persisted log. -/
theorem claim_C10_calculator_frame (c : FractionCalculator) (ch : ℕ → ℕ)
    (prices : List ℚ) (log : List ScoringRecord) :
    (calcState c ch prices log).1.1 = c ∧
    (calcState c ch prices log).1.1.standard_price = c.standard_price ∧
    (calcState c ch prices log).1.1.configs = c.configs :=
  ⟨rfl, rfl, rfl⟩

end BidPriceCalc
